import Mathlib

/-!
Verification of the claim-to-spreadsheet conversion program
(`certsuite_claim_spreadsheet.py`).

The program parses a certification-suite "claim" record (a JSON document),
normalizes each test entry into a flat reporting row, buckets and sorts the
rows by outcome state, and renders them into a styled spreadsheet grid with a
summary header.

The development below is a shallow embedding of that program:

* JSON documents are modelled by the inductive type `J`; Python `dict.get`,
  `dict.items`, the `in` operator and truthiness are modelled by `pyGet`,
  `jItems`, `jContains` and `truthy`, returning `Except` where Python would
  raise (`AttributeError` / `TypeError`).
* Text is modelled as `List Char` where character-level operations matter
  (`str.strip`, `str.split`, substring tests); `String` elsewhere.
* `extract_test_results`, `add_test_results_to_worksheet`,
  `add_summary_section`, `add_version_information`, `apply_basic_styling` and
  `apply_final_formatting` are translated function by function.  The worksheet
  is a row-major grid of cells; only cell values and fonts are tracked, since
  fills, borders, alignments, column widths and row heights are not referenced
  by any property stated here.
* Python's `sorted` (stable, ascending) is modelled by a stable insertion
  sort in the `Except` monad; comparing values of incompatible types is a
  `TypeError`, as in Python (the exact schedule of comparisons, and hence
  which comparison surfaces an error on exotic mixed-type inputs, is
  Timsort-specific and not reproduced).
-/

/-! ## Character-level text utilities (Python `str` operations) -/

/-- The ASCII whitespace characters removed by Python `str.strip()`. -/
def pyWhitespace (c : Char) : Bool :=
  c = ' ' || c = '\t' || c = '\n' || c = '\r' || c = '\x0b' || c = '\x0c'

/-- Python `str.strip()`: drop leading and trailing whitespace. -/
def pyStrip (l : List Char) : List Char :=
  ((l.dropWhile pyWhitespace).reverse.dropWhile pyWhitespace).reverse

/-- Python `str.split(sep)` for a single-character separator: `""` splits to
`[""]`, and a trailing separator yields a trailing empty piece. -/
def pySplitOnChar (c : Char) : List Char → List (List Char)
  | [] => [[]]
  | x :: xs =>
    let rest := pySplitOnChar c xs
    if x = c then [] :: rest
    else
      match rest with
      | [] => [[x]]
      | y :: ys => (x :: y) :: ys

/-- `hasPrefixChars pat l` is true when `pat` is an initial segment of `l`. -/
def hasPrefixChars : List Char → List Char → Bool
  | [], _ => true
  | _ :: _, [] => false
  | a :: as, b :: bs => a == b && hasPrefixChars as bs

/-- Python `pat in s` (substring containment) on character lists. -/
def hasSubstring (pat : List Char) : List Char → Bool
  | [] => hasPrefixChars pat []
  | b :: bs => hasPrefixChars pat (b :: bs) || hasSubstring pat bs

/-- The characters of the literal `"INFO"`. -/
def infoChars : List Char := ['I', 'N', 'F', 'O']

/-- Python `"INFO" in line`. -/
def containsInfo (l : List Char) : Bool := hasSubstring infoChars l

/-- The per-line predicate of the captured-output filter: keep lines that do
not contain `"INFO"` (source line 55). -/
def keepLine (l : List Char) : Bool := !containsInfo l

/-- Python `sep.join(pieces)` for a single-character separator. -/
def joinWithChar (c : Char) : List (List Char) → List Char
  | [] => []
  | [l] => l
  | l :: rest => l ++ c :: joinWithChar c rest

/-- The body of the captured-output filter for truthy input (source lines
54-56): strip the whole string, split on newlines, drop lines containing
`"INFO"`, rejoin with newlines. -/
def pyFilterLines (l : List Char) : List Char :=
  joinWithChar '\n' ((pySplitOnChar '\n' (pyStrip l)).filter keepLine)

/-- The captured-output filter of `extract_test_results` (source lines 52-58):
falsy (empty) input yields the empty string, otherwise `pyFilterLines`. -/
def pyFilter (l : List Char) : List Char :=
  if l = [] then [] else pyFilterLines l

/-- `pyFilter` packaged on `String`. -/
def pyFilterStr (s : String) : String := String.mk (pyFilter s.data)

/-- Modelled from the spec (§4.1 / claim C4 wording): the line filter that
returns exactly the *input's* lines not containing `"INFO"`, in order,
rejoined with newline separators — with no whitespace stripping.  Used only to
compare the spec's wording with the source's `pyFilter`. -/
def specLineFilter (l : List Char) : List Char :=
  joinWithChar '\n' ((pySplitOnChar '\n' l).filter keepLine)

/-! ## JSON values and Python dictionary primitives -/

/-- A JSON value, as produced by `json.load`.  Objects are association lists
in insertion order (Python dicts preserve insertion order; keys are unique in
real documents, and lookup takes the first match). -/
inductive J where
  | null
  | bool (b : Bool)
  | num (n : Int)
  | str (s : String)
  | obj (fields : List (String × J))
  | arr (items : List J)

/-- First-match lookup in an association list (Python dict lookup). -/
def jLookup : List (String × J) → String → Option J
  | [], _ => none
  | (k1, v) :: rest, k => if k1 = k then some v else jLookup rest k

/-- Python `d.get(key, default)`: only objects have `.get`; on any other value
it is an `AttributeError`. -/
def pyGet (v : J) (k : String) (default : J) : Except String J :=
  match v with
  | .obj fs => .ok ((jLookup fs k).getD default)
  | _ => .error "AttributeError: get"

/-- Python `d.items()`: only objects have `.items`. -/
def jItems (v : J) : Except String (List (String × J)) :=
  match v with
  | .obj fs => .ok fs
  | _ => .error "AttributeError: items"

/-- Python truthiness of a JSON value. -/
def truthy : J → Bool
  | .null => false
  | .bool b => b
  | .num n => n != 0
  | .str s => s ≠ ""
  | .obj fs => !fs.isEmpty
  | .arr xs => !xs.isEmpty

/-- Python `v == "lit"` for a string literal: true exactly for the equal
string (Python `==` between a `str` and a non-`str` JSON value is `False`). -/
def jIsStr (v : J) (lit : String) : Bool :=
  match v with
  | .str s => s = lit
  | _ => false

/-- Python `key in v` (membership test): key lookup for dicts, substring test
for strings, elementwise `==` for lists (a `str` only ever equals a `str`);
`TypeError` otherwise. -/
def jContains (v : J) (k : String) : Except String Bool :=
  match v with
  | .obj fs => .ok (fs.any (fun kv => kv.1 = k))
  | .str s => .ok (hasSubstring k.data s.data)
  | .arr xs => .ok (xs.any (fun x => jIsStr x k))
  | _ => .error "TypeError: argument is not iterable"

mutual

/-- Python `str(v)` / f-string conversion of a JSON value.  Exact for `None`,
booleans, integers and strings (the only shapes the program's fields take in
real claim documents); for nested containers the rendering is a plain
comma-separated approximation of Python's `repr`-based form, and no property
below depends on it. -/
def jStr : J → String
  | .null => "None"
  | .bool true => "True"
  | .bool false => "False"
  | .num n => toString n
  | .str s => s
  | .obj fs => "\x7b" ++ jStrFields fs ++ "\x7d"
  | .arr xs => "[" ++ jStrList xs ++ "]"

/-- Comma-separated `key: value` rendering of object fields. -/
def jStrFields : List (String × J) → String
  | [] => ""
  | [(k, v)] => k ++ ": " ++ jStr v
  | (k, v) :: rest => k ++ ": " ++ jStr v ++ ", " ++ jStrFields rest

/-- Comma-separated rendering of array items. -/
def jStrList : List J → String
  | [] => ""
  | [v] => jStr v
  | v :: rest => jStr v ++ ", " ++ jStrList rest

end

/-- Python `<` between two JSON values, as used by `sorted`: strings compare
lexicographically by code point, numbers and booleans numerically (`bool` is
an `int`); any other pairing is a `TypeError`. -/
def jLtE (a b : J) : Except String Bool :=
  match a, b with
  | .str x, .str y => .ok (decide (x < y))
  | .num x, .num y => .ok (decide (x < y))
  | .bool x, .bool y => .ok (decide (x = false ∧ y = true))
  | .num x, .bool y => .ok (decide (x < (if y then (1 : Int) else 0)))
  | .bool x, .num y => .ok (decide ((if x then (1 : Int) else 0) < y))
  | _, _ => .error "TypeError: unorderable types"

/-! ## The result extractor (`extract_test_results`, source lines 31-88) -/

/-- The flattened reporting row built for one test entry (the Python `result`
dict, source lines 42-63).  `Capture_Output` and `Best_Practice_Link` are
optional because the source adds those two keys to the dict only when the
entry's state is not `'passed'`. -/
structure ReportRow where
  Test_Id : J
  Test_Text : J
  State : J
  Category_Classification : String
  Exception_Process : J
  Remediation : J
  Capture_Output : Option String
  Best_Practice_Link : Option J

/-- The `', '.join(f"{k}: {v}" ...)` rendering of `categoryClassification`
(source line 46). -/
def pyCategoryString (items : List (String × J)) : String :=
  String.intercalate ", " (items.map (fun kv => kv.1 ++ ": " ++ jStr kv.2))

/-- Normalization of one test entry (the body of the per-entry `try` block,
source lines 41-65).  Any `AttributeError` from a `.get`/`.items`/`.strip`
call on a wrongly-shaped value surfaces as `.error` (the entry is then
skipped by the caller).  The source fetches `test.get('catalogInfo', {})`
afresh for each catalog field; the fetches are identical, so a single fetch
is used for all of them. -/
def normalizeEntry (test : J) : Except String ReportRow :=
  match pyGet test "testID" (J.obj []) with
  | .error e => .error e
  | .ok testID =>
  match pyGet testID "id" (J.str "") with
  | .error e => .error e
  | .ok tid =>
  match pyGet test "catalogInfo" (J.obj []) with
  | .error e => .error e
  | .ok catalog =>
  match pyGet catalog "description" (J.str "") with
  | .error e => .error e
  | .ok desc =>
  match pyGet test "state" (J.str "") with
  | .error e => .error e
  | .ok state =>
  match pyGet test "categoryClassification" (J.obj []) with
  | .error e => .error e
  | .ok catMap =>
  match jItems catMap with
  | .error e => .error e
  | .ok catItems =>
  match pyGet catalog "exceptionProcess" (J.str "") with
  | .error e => .error e
  | .ok excProc =>
  match pyGet catalog "remediation" (J.str "") with
  | .error e => .error e
  | .ok remed =>
  match pyGet test "capturedTestOutput" (J.str "") with
  | .error e => .error e
  | .ok captured =>
  match (if truthy captured then
           match captured with
           | .str s => Except.ok (pyFilterStr s)
           | _ => Except.error "AttributeError: strip"
         else Except.ok "") with
  | .error e => .error e
  | .ok filteredStr =>
  match pyGet test "state" J.null with
  | .error e => .error e
  | .ok stateCheck =>
  if jIsStr stateCheck "passed" then
    Except.ok { Test_Id := tid, Test_Text := desc, State := state,
                Category_Classification := pyCategoryString catItems,
                Exception_Process := excProc, Remediation := remed,
                Capture_Output := none, Best_Practice_Link := none }
  else
    match pyGet catalog "bestPracticeReference" (J.str "") with
    | .error e => .error e
    | .ok bpr =>
      Except.ok { Test_Id := tid, Test_Text := desc, State := state,
                  Category_Classification := pyCategoryString catItems,
                  Exception_Process := excProc, Remediation := remed,
                  Capture_Output := some filteredStr, Best_Practice_Link := some bpr }

/-- The per-entry loop of `extract_test_results` (source lines 40-68): each
entry is normalized independently; an entry whose normalization raises is
logged and skipped. -/
def normalizeAll (items : List (String × J)) : List ReportRow :=
  items.filterMap (fun kv => (normalizeEntry kv.2).toOption)

/-- Python `r['State'] == s` for a string literal `s` (source lines 71-74). -/
def stateIs (s : String) (r : ReportRow) : Bool := jIsStr r.State s

/-- Stable insertion of a row into a sorted list, comparing `Test_Id` keys:
the new row goes immediately before the first element that is not below it
(so equal keys keep their original relative order, as Python's stable sort
does).  An incomparable pair of keys is a `TypeError`. -/
def insertRow (x : ReportRow) : List ReportRow → Except String (List ReportRow)
  | [] => .ok [x]
  | y :: ys =>
    match jLtE y.Test_Id x.Test_Id with
    | .error e => .error e
    | .ok true =>
      match insertRow x ys with
      | .error e => .error e
      | .ok rest => .ok (y :: rest)
    | .ok false => .ok (x :: y :: ys)

/-- Python `sorted(rows, key=lambda r: r['Test_Id'])`: stable ascending sort,
modelled as insertion sort. -/
def sortRows : List ReportRow → Except String (List ReportRow)
  | [] => .ok []
  | x :: xs =>
    match sortRows xs with
    | .error e => .error e
    | .ok s => insertRow x s

/-- The extractor's return value: the ordered rows plus the four bucket
counts (source line 85). -/
structure ExtractResult where
  rows : List ReportRow
  total_failed : Nat
  total_error : Nat
  total_skipped : Nat
  total_passed : Nat

/-- Bucketing, per-bucket sorting, counting and concatenation (source lines
70-85): filter the rows into the four recognized states, sort each bucket by
`Test_Id`, count the buckets, return `failed ++ error ++ skipped ++ passed`. -/
def sortAndCount (results : List ReportRow) : Except String ExtractResult :=
  match sortRows (results.filter (stateIs "failed")) with
  | .error e => .error e
  | .ok failedT =>
    match sortRows (results.filter (stateIs "error")) with
    | .error e => .error e
    | .ok errorT =>
      match sortRows (results.filter (stateIs "skipped")) with
      | .error e => .error e
      | .ok skippedT =>
        match sortRows (results.filter (stateIs "passed")) with
        | .error e => .error e
        | .ok passedT =>
          .ok { rows := failedT ++ errorT ++ skippedT ++ passedT,
                total_failed := failedT.length,
                total_error := errorT.length,
                total_skipped := skippedT.length,
                total_passed := passedT.length }

/-- The body of `extract_test_results`'s outer `try` block (source lines
33-85): fetch `claim.results` (empty object default), fail when falsy,
iterate its items, then bucket/sort/count. -/
def extractCore (data : J) : Except String ExtractResult :=
  match pyGet data "claim" (J.obj []) with
  | .error e => .error e
  | .ok claimv =>
    match pyGet claimv "results" (J.obj []) with
    | .error e => .error e
    | .ok claim_results =>
      if truthy claim_results then
        match jItems claim_results with
        | .error e => .error e
        | .ok items => sortAndCount (normalizeAll items)
      else .error "No test results found in claim data"

/-- The outer `except` clause of `extract_test_results` (source lines 87-88):
any error is re-raised as `ValueError(f"Error extracting test results: {e}")`. -/
def wrapExtractError (r : Except String ExtractResult) : Except String ExtractResult :=
  match r with
  | .ok v => .ok v
  | .error e => .error ("Error extracting test results: " ++ e)

/-- `extract_test_results` (source lines 31-88). -/
def extract_test_results (data : J) : Except String ExtractResult :=
  wrapExtractError (extractCore data)

/-! ## The report renderer (worksheet grid; values and fonts) -/

/-- The font state of a cell: an `openpyxl` `Font(...)` assignment replaces
the whole font, so a font is (name, bold, color) with `none` for unset. -/
structure XFont where
  name : Option String
  bold : Bool
  color : Option String
deriving DecidableEq

/-- A new cell's default font. -/
def defaultFont : XFont := { name := none, bold := false, color := none }

/-- `Font(name='Arial')` (source line 131). -/
def arialFont : XFont := { name := some "Arial", bold := false, color := none }

/-- `Font(bold=True)` used for the header row (source line 132) and for the
summary block (source line 122). -/
def boldOnlyFont : XFont := { name := none, bold := true, color := none }

/-- `Font(name='Arial', bold=False, color="0000FF")` — the classification
keyword font (source line 317). -/
def blueBoldFont : XFont := { name := some "Arial", bold := false, color := some "0000FF" }

/-- One worksheet cell: its value and its font.  Fills, borders, alignment
and dimensions are not tracked (no stated property mentions them). -/
structure XCell where
  value : J
  font : XFont

/-- A cell that has never been written. -/
def emptyCell : XCell := { value := J.null, font := defaultFont }

/-- The fixed column headers of the row table (source line 105). -/
def headersList : List String :=
  ["Test_Id", "Test_Text", "State", "Capture_Output",
   "Category_Classification", "Exception_Process", "Remediation",
   "Best_Practice_Link"]

/-- The 8 cell values written for one report row (source lines 111-117):
`test.get(header, '')`, so a key absent from the row dict renders as the
empty string. -/
def row_values (r : ReportRow) : List J :=
  [r.Test_Id, r.Test_Text, r.State,
   (match r.Capture_Output with
    | some s => J.str s
    | none => J.str ""),
   J.str r.Category_Classification, r.Exception_Process, r.Remediation,
   (match r.Best_Practice_Link with
    | some v => v
    | none => J.str "")]

/-- `add_test_results_to_worksheet` (source lines 102-117): append the header
row, then one row of values per report row.  Appended cells carry the default
font. -/
def add_test_results_to_worksheet (rows : List ReportRow) : List (List XCell) :=
  (headersList.map (fun h => { value := J.str h, font := defaultFont })) ::
    rows.map (fun r => (row_values r).map (fun v => { value := v, font := defaultFont }))

/-- The font effect of `apply_basic_styling` (source lines 139-154): every
cell gets the Arial font, overwritten on row 1 (the header row, before the
summary insertion) by the bold header font.  The state-column fills set in
the same loop are not tracked. -/
def apply_basic_styling (ws : List (List XCell)) : List (List XCell) :=
  match ws with
  | [] => []
  | r1 :: rest =>
    (r1.map (fun c => { c with font := boldOnlyFont })) ::
      rest.map (fun row => row.map (fun c => { c with font := arialFont }))

/-- Replace the element at (0-based) index `n`, when it exists. -/
def modifyNth (f : α → α) : Nat → List α → List α
  | _, [] => []
  | 0, x :: xs => f x :: xs
  | n + 1, x :: xs => x :: modifyNth f n xs

/-- `ws['<col><row>'] = v` for 1-indexed row `r` and column `c`. -/
def setCellValue (ws : List (List XCell)) (r c : Nat) (v : J) : List (List XCell) :=
  modifyNth (fun row => modifyNth (fun cell => { cell with value := v }) (c - 1) row) (r - 1) ws

/-- A freshly inserted blank row (8 columns, the sheet's column count). -/
def blankRow : List XCell := List.replicate 8 emptyCell

/-- Bold every cell of the first `n` rows (the
`iter_rows(min_row=1, max_row=8)` loop of source lines 227-231; the
summary-label fills set there are not tracked). -/
def boldFirstRows : Nat → List (List XCell) → List (List XCell)
  | _, [] => []
  | 0, ws => ws
  | n + 1, row :: rest =>
    row.map (fun c => { c with font := boldOnlyFont }) :: boldFirstRows n rest

/-- `add_summary_section` (source lines 192-231): insert 9 blank rows at the
top, write the summary labels and values into rows 1-9 (`B2` is
`len(sorted_tests)`, `B7` is the job URL), and bold rows 1-8. -/
def add_summary_section (ws : List (List XCell)) (sorted_tests : List ReportRow)
    (failed_tests error_tests skipped_tests passed_tests : Nat)
    (dci_jobid : String) : List (List XCell) :=
  let ws := List.replicate 9 blankRow ++ ws
  let ws := setCellValue ws 1 1 (J.str "Summary")
  let ws := setCellValue ws 2 1 (J.str "Total")
  let ws := setCellValue ws 3 1 (J.str "Failed")
  let ws := setCellValue ws 4 1 (J.str "Error")
  let ws := setCellValue ws 5 1 (J.str "Skipped")
  let ws := setCellValue ws 6 1 (J.str "Passed")
  let ws := setCellValue ws 2 2 (J.num sorted_tests.length)
  let ws := setCellValue ws 3 2 (J.num failed_tests)
  let ws := setCellValue ws 4 2 (J.num error_tests)
  let ws := setCellValue ws 5 2 (J.num skipped_tests)
  let ws := setCellValue ws 6 2 (J.num passed_tests)
  let ws := setCellValue ws 7 1 (J.str "Job-Id")
  let ws := setCellValue ws 7 2 (J.str ("https://www.distributed-ci.io/jobs/" ++ dci_jobid))
  let ws := setCellValue ws 8 1 (J.str "")
  let ws := setCellValue ws 9 1 (J.str "")
  boldFirstRows 8 ws

/-- The six version values fetched by `add_version_information` (source lines
240-245); the fetches precede every cell write, so a failure (non-dict
`claim` or `versions`) means no version cell is written at all. -/
def versionValues (data : J) : Except String (List J) := do
  let claimv ← pyGet data "claim" (J.obj [])
  let versions ← pyGet claimv "versions" (J.obj [])
  let k8s ← pyGet versions "k8s" (J.str "N/A")
  let occ ← pyGet versions "ocClient" (J.str "N/A")
  let ocp ← pyGet versions "ocp" (J.str "N/A")
  let cert ← pyGet versions "certSuite" (J.str "N/A")
  let cf ← pyGet versions "claimFormat" (J.str "N/A")
  let cgc ← pyGet versions "certSuiteGitCommit" (J.str "N/A")
  pure [k8s, occ, ocp, cert, cf, cgc]

/-- `add_version_information` (source lines 233-264): write the component and
version labels into columns C and D of rows 1-7; an exception while fetching
is caught and leaves the worksheet untouched. -/
def add_version_information (ws : List (List XCell)) (data : J) : List (List XCell) :=
  match versionValues data with
  | .error _ => ws
  | .ok vs =>
    let ws := setCellValue ws 1 3 (J.str "Component")
    let ws := setCellValue ws 1 4 (J.str "Version")
    let ws := setCellValue ws 2 3 (J.str "K8S")
    let ws := setCellValue ws 3 3 (J.str "ocClient")
    let ws := setCellValue ws 4 3 (J.str "OCP")
    let ws := setCellValue ws 5 3 (J.str "CERTSUIT")
    let ws := setCellValue ws 6 3 (J.str "claimF")
    let ws := setCellValue ws 7 3 (J.str "certGitCom")
    let ws := setCellValue ws 2 4 (vs.getD 0 J.null)
    let ws := setCellValue ws 3 4 (vs.getD 1 J.null)
    let ws := setCellValue ws 4 4 (vs.getD 2 J.null)
    let ws := setCellValue ws 5 4 (vs.getD 3 J.null)
    let ws := setCellValue ws 6 4 (vs.getD 4 J.null)
    setCellValue ws 7 4 (vs.getD 5 J.null)

/-- The literal classification keywords (source line 318). -/
def keywords : List String := ["Extended:", "FarEdge:", "NonTelco:", "Telco:"]

/-- `isinstance(cell.value, str) and any(keyword in cell.value ...)` (source
line 322). -/
def keywordMatch (v : J) : Bool :=
  match v with
  | .str s => keywords.any (fun k => hasSubstring k.data s.data)
  | _ => false

/-- One row of the keyword-font loop: recolor the cells of columns `ci ≤ 6`
whose value matches a keyword (`min_col=1, max_col=6`, source line 319). -/
def keywordCols (ci : Nat) : List XCell → List XCell
  | [] => []
  | c :: cs =>
    (if ci ≤ 6 && keywordMatch c.value then { c with font := blueBoldFont } else c) ::
      keywordCols (ci + 1) cs

/-- The row loop of the keyword font pass: rows `ri ≥ 2` (`min_row=2`,
source line 319). -/
def keywordRows (ri : Nat) : List (List XCell) → List (List XCell)
  | [] => []
  | row :: rest =>
    (if 2 ≤ ri then keywordCols 1 row else row) :: keywordRows (ri + 1) rest

/-- The font effect of `apply_final_formatting` (source lines 266-327): of
its steps, only the classification-keyword pass (lines 317-323) touches cell
values or fonts; alignments, borders, fills, column widths and row heights
are not tracked. -/
def apply_final_formatting (ws : List (List XCell)) : List (List XCell) :=
  keywordRows 1 ws

/-- The worksheet-building pipeline of `generate_cert_test_excel_report`
(source lines 350-368), after extraction: append the row table, apply basic
styling, insert the summary, add version information, apply final
formatting. -/
def render_report (data : J) (res : ExtractResult) (dci_jobid : String) : List (List XCell) :=
  apply_final_formatting
    (add_version_information
      (add_summary_section
        (apply_basic_styling (add_test_results_to_worksheet res.rows))
        res.rows res.total_failed res.total_error res.total_skipped res.total_passed dci_jobid)
      data)

/-- The decision logic of `generate_cert_test_excel_report` (source lines
329-384) on an already-parsed document: validate the `claim` and `results`
sections, extract, render.  Any `.error` makes the run exit non-zero (the
`except` clauses all call `sys.exit(1)`); file and JSON-parse errors are I/O
and outside this model. -/
def generate_report_core (data : J) (dci_jobid : String) : Except String (List (List XCell)) :=
  match jContains data "claim" with
  | .error e => .error e
  | .ok false => .error "Invalid claim file: missing 'claim' section"
  | .ok true =>
    match pyGet data "claim" (J.obj []) with
    | .error e => .error e
    | .ok claimv =>
      match jContains claimv "results" with
      | .error e => .error e
      | .ok false => .error "Invalid claim file: missing 'results' section"
      | .ok true =>
        match extract_test_results data with
        | .error e => .error e
        | .ok res => .ok (render_report data res dci_jobid)

/-- Cell access, 1-indexed (`ws['B7']` is `cellAt ws 7 2`). -/
def cellAt (ws : List (List XCell)) (r c : Nat) : Option XCell :=
  (ws[r - 1]?).bind (fun row => row[c - 1]?)

/-- The value of a cell, 1-indexed. -/
def valueAt (ws : List (List XCell)) (r c : Nat) : Option J :=
  (cellAt ws r c).map (fun cell => cell.value)

/-! ## The command-line entry point (`__main__`, source lines 518-548) -/

/-- What an invocation does before/at report generation. -/
inductive MainOutcome where
  | exitEarly (code : Nat)
  | generateReport (input_file : String) (job_id : String)
deriving DecidableEq

/-- The job id actually used: the `-j` argument when supplied, else the
offline default `"12345"` (source lines 540-544). -/
def effective_job_id (arg : Option String) : String :=
  match arg with
  | some j => j
  | none => "12345"

/-- The branch structure of `__main__` (source lines 518-548):
`check_file_exists("dcirc.sh")` exits with status 0 when the file is absent;
a missing `dcictl` only prints (the exit is commented out); with a job id the
claim file is first downloaded (an external process, represented only by its
success flag — a failed download exits non-zero inside
`download_dci_cert_claim_json`); then the report is generated. -/
def main_flow (dcirc_exists _dcictl_installed download_ok : Bool)
    (input_file : String) (job_id_arg : Option String) : MainOutcome :=
  if dcirc_exists = false then .exitEarly 0
  else
    match job_id_arg with
    | some j => if download_ok then .generateReport input_file j else .exitEarly 1
    | none => .generateReport input_file (effective_job_id none)

/-! ## Concrete inputs used by the stated properties -/

/-- A minimal `failed` entry with id `"B"`. -/
def entryFailedB : J :=
  J.obj [("testID", J.obj [("id", J.str "B")]), ("state", J.str "failed")]

/-- A minimal `passed` entry with id `"A"`. -/
def entryPassedA : J :=
  J.obj [("testID", J.obj [("id", J.str "A")]), ("state", J.str "passed")]

/-- A minimal `skipped` entry with id `"A"`. -/
def entrySkippedA : J :=
  J.obj [("testID", J.obj [("id", J.str "A")]), ("state", J.str "skipped")]

/-- The spec's three-entry end-to-end scenario: one `failed` id `"B"`, one
`passed` id `"A"`, one `skipped` id `"A"`. -/
def exampleClaimData : J :=
  J.obj [("claim", J.obj [("results", J.obj
    [("t1", entryFailedB), ("t2", entryPassedA), ("t3", entrySkippedA)])])]

/-- The row `extract_test_results` produces for `entryFailedB`. -/
def rowFailedB : ReportRow :=
  { Test_Id := J.str "B", Test_Text := J.str "", State := J.str "failed",
    Category_Classification := "", Exception_Process := J.str "",
    Remediation := J.str "", Capture_Output := some "",
    Best_Practice_Link := some (J.str "") }

/-- The row `extract_test_results` produces for `entrySkippedA`. -/
def rowSkippedA : ReportRow :=
  { Test_Id := J.str "A", Test_Text := J.str "", State := J.str "skipped",
    Category_Classification := "", Exception_Process := J.str "",
    Remediation := J.str "", Capture_Output := some "",
    Best_Practice_Link := some (J.str "") }

/-- The row `extract_test_results` produces for `entryPassedA`: no
`Capture_Output`, no `Best_Practice_Link`. -/
def rowPassedA : ReportRow :=
  { Test_Id := J.str "A", Test_Text := J.str "", State := J.str "passed",
    Category_Classification := "", Exception_Process := J.str "",
    Remediation := J.str "", Capture_Output := none,
    Best_Practice_Link := none }

/-- The extraction result for `exampleClaimData`: order
`[B(failed), A(skipped), A(passed)]`, counts `(1, 0, 1, 1)`. -/
def exampleExtract : ExtractResult :=
  { rows := [rowFailedB, rowSkippedA, rowPassedA],
    total_failed := 1, total_error := 0, total_skipped := 1, total_passed := 1 }

/-- An entry whose `remediation` (8th column of the row table) and
`categoryClassification` rendering (5th column) both contain the literal
`"Telco:"`. -/
def entryTelco : J :=
  J.obj [("testID", J.obj [("id", J.str "a")]), ("state", J.str "failed"),
         ("categoryClassification", J.obj [("Telco", J.str "Mandatory")]),
         ("catalogInfo", J.obj [("remediation", J.str "Telco: fix it")])]

/-- A claim document whose single entry is `entryTelco`. -/
def keywordClaimData : J :=
  J.obj [("claim", J.obj [("results", J.obj [("t", entryTelco)])])]

/-- The row `extract_test_results` produces for `entryTelco`. -/
def rowTelco : ReportRow :=
  { Test_Id := J.str "a", Test_Text := J.str "", State := J.str "failed",
    Category_Classification := "Telco: Mandatory", Exception_Process := J.str "",
    Remediation := J.str "Telco: fix it", Capture_Output := some "",
    Best_Practice_Link := some (J.str "") }

/-- The extraction result for `keywordClaimData`. -/
def keywordExtract : ExtractResult :=
  { rows := [rowTelco], total_failed := 1, total_error := 0,
    total_skipped := 0, total_passed := 0 }

/-- A claim document whose `results` mapping is present but empty. -/
def emptyResultsClaimData : J :=
  J.obj [("claim", J.obj [("results", J.obj [])])]

/-- The `Category_Classification` cell (row 11, column 5) of the rendered
report for `keywordClaimData`: keyword text, recolored. -/
def keywordBlueCell : XCell :=
  { value := J.str "Telco: Mandatory", font := blueBoldFont }

/-! ## Ordering predicates used in the stated properties -/

/-- `a ≤ b` whenever both JSON values are strings (vacuously true
otherwise).  This is the per-pair meaning of "sorted ascending by id under
lexicographic string order": buckets whose ids are all strings — the only
shape the data model allows — are genuinely sorted. -/
def jStrLe (a b : J) : Prop :=
  ∀ x y, a = J.str x → b = J.str y → x ≤ y

/-- Row-level comparison by `Test_Id`. -/
def rowIdLe (a b : ReportRow) : Prop := jStrLe a.Test_Id b.Test_Id

/-- A row's state is one of the four recognized bucket states. -/
def recognizedState (r : ReportRow) : Bool :=
  stateIs "failed" r || stateIs "error" r || stateIs "skipped" r || stateIs "passed" r

/-- A claim document with the given `results` fields and nothing else. -/
def mkClaimData (fs : List (String × J)) : J :=
  J.obj [("claim", J.obj [("results", J.obj fs)])]

/-! ## Lemmas about the captured-output filter -/

/-- No piece produced by splitting on `c` contains `c`. -/
theorem mem_pySplitOnChar (c : Char) :
    ∀ (s : List Char) (l : List Char), l ∈ pySplitOnChar c s → c ∉ l := by
  intro s
  induction s with
  | nil =>
    intro l hl
    simp [pySplitOnChar] at hl
    simp [hl]
  | cons x xs ih =>
    intro l hl
    by_cases hx : x = c
    · simp [pySplitOnChar, hx] at hl
      rcases hl with hl | hl
      · simp [hl]
      · exact ih l hl
    · simp only [pySplitOnChar, if_neg hx] at hl
      rcases hr : pySplitOnChar c xs with _ | ⟨y, ys⟩
      · rw [hr] at hl
        simp at hl
        subst hl
        simp
        exact fun hcx => hx hcx.symm
      · rw [hr] at hl
        simp at hl
        rcases hl with hl | hl
        · subst hl
          have hy : c ∉ y := ih y (by rw [hr]; exact List.mem_cons_self y ys)
          simp
          constructor
          · exact fun hcx => hx hcx.symm
          · exact hy
        · exact ih l (by rw [hr]; exact List.mem_cons_of_mem y hl)

/-- Splitting `l ++ r` when `l` is separator-free prepends `l` to the first
piece of `r`. -/
theorem pySplitOnChar_append (c : Char) :
    ∀ (l r h : List Char) (t : List (List Char)), c ∉ l →
      pySplitOnChar c r = h :: t → pySplitOnChar c (l ++ r) = (l ++ h) :: t := by
  intro l
  induction l with
  | nil => intro r h t _ hr; simpa using hr
  | cons a l ih =>
    intro r h t hc hr
    have ha : ¬(a = c) := by
      intro he
      apply hc
      rw [← he]
      exact List.mem_cons_self a l
    have htail : c ∉ l := fun hm => hc (List.mem_cons_of_mem a hm)
    have h2 := ih r h t htail hr
    simp only [List.cons_append, pySplitOnChar, if_neg ha, List.append_eq]
    rw [h2]

/-- A separator-free list splits to itself. -/
theorem pySplitOnChar_free (c : Char) (l : List Char) (hc : c ∉ l) :
    pySplitOnChar c l = [l] := by
  have := pySplitOnChar_append c l [] [] [] hc (by simp [pySplitOnChar])
  simpa using this

/-- Splitting on `c` is a left inverse of joining with `c` for nonempty lists
of separator-free pieces. -/
theorem pySplitOnChar_joinWithChar (c : Char) :
    ∀ (l0 : List Char) (rest : List (List Char)),
      (∀ m ∈ l0 :: rest, c ∉ m) →
      pySplitOnChar c (joinWithChar c (l0 :: rest)) = l0 :: rest := by
  intro l0 rest
  induction rest generalizing l0 with
  | nil =>
    intro hfree
    exact pySplitOnChar_free c l0 (hfree l0 (List.mem_cons_self l0 []))
  | cons l1 rest ih =>
    intro hfree
    have h1 : pySplitOnChar c (joinWithChar c (l1 :: rest)) = l1 :: rest :=
      ih l1 (fun m hm => hfree m (List.mem_cons_of_mem l0 hm))
    have h2 : pySplitOnChar c (c :: joinWithChar c (l1 :: rest)) =
        [] :: l1 :: rest := by
      simp [pySplitOnChar, h1]
    have h0 : c ∉ l0 := hfree l0 (List.mem_cons_self l0 (l1 :: rest))
    have h3 := pySplitOnChar_append c l0 (c :: joinWithChar c (l1 :: rest)) [] (l1 :: rest) h0 h2
    have h4 : joinWithChar c (l0 :: l1 :: rest) = l0 ++ c :: joinWithChar c (l1 :: rest) := rfl
    rw [h4, h3]
    simp

/-- `List.filter` is idempotent. -/
theorem filter_idem_list (p : α → Bool) : ∀ l : List α, (l.filter p).filter p = l.filter p := by
  intro l
  induction l with
  | nil => rfl
  | cons x xs ih =>
    by_cases hx : p x = true
    · simp [List.filter, hx, ih]
    · simp [List.filter, hx, ih]

/-! ## Lemmas about the bucket sort -/

/-- A successful `<` comparison implies the string order (when both keys are
strings). -/
theorem jLtE_ok_true_le {a b : J} (h : jLtE a b = .ok true) : jStrLe a b := by
  intro x y hx hy
  subst hx; subst hy
  simp only [jLtE, Except.ok.injEq, decide_eq_true_eq] at h
  exact le_of_lt h

/-- A failed `<` comparison implies the reverse string order (when both keys
are strings). -/
theorem jLtE_ok_false_le {a b : J} (h : jLtE a b = .ok false) : jStrLe b a := by
  intro x y hx hy
  subst hx; subst hy
  simp only [jLtE, Except.ok.injEq, decide_eq_false_iff_not] at h
  exact le_of_not_lt h

/-- If a comparison against a string key returned `false`, the other key is
also a string, and at least as large. -/
theorem jLtE_ok_false_str {a b : J} (h : jLtE a b = .ok false) :
    ∀ v, b = J.str v → ∃ u, a = J.str u ∧ v ≤ u := by
  intro v hv
  subst hv
  cases a with
  | str u =>
    refine ⟨u, rfl, ?_⟩
    simp only [jLtE, Except.ok.injEq, decide_eq_false_iff_not] at h
    exact le_of_not_lt h
  | null => simp [jLtE] at h
  | bool b2 => simp [jLtE] at h
  | num n => simp [jLtE] at h
  | obj fs => simp [jLtE] at h
  | arr xs => simp [jLtE] at h

/-- Every element of a successful insertion is the new row or an old row. -/
theorem insertRow_mem {x : ReportRow} :
    ∀ {l out}, insertRow x l = .ok out → ∀ z ∈ out, z = x ∨ z ∈ l := by
  intro l
  induction l with
  | nil =>
    intro out h z hz
    simp [insertRow] at h
    subst h
    simp at hz
    exact Or.inl hz
  | cons y ys ih =>
    intro out h z hz
    cases hlt : jLtE y.Test_Id x.Test_Id with
    | error e => simp [insertRow, hlt] at h
    | ok b =>
      cases b with
      | true =>
        simp only [insertRow, hlt] at h
        cases hr : insertRow x ys with
        | error e => rw [hr] at h; simp at h
        | ok rest =>
          rw [hr] at h
          simp at h
          subst h
          rcases List.mem_cons.mp hz with hz | hz
          · exact Or.inr (by rw [hz]; exact List.mem_cons_self y ys)
          · rcases ih hr z hz with h1 | h1
            · exact Or.inl h1
            · exact Or.inr (List.mem_cons_of_mem y h1)
      | false =>
        simp [insertRow, hlt] at h
        subst h
        rcases List.mem_cons.mp hz with hz | hz
        · exact Or.inl hz
        · exact Or.inr hz

/-- A successful insertion adds exactly one element. -/
theorem insertRow_length {x : ReportRow} :
    ∀ {l out}, insertRow x l = .ok out → out.length = l.length + 1 := by
  intro l
  induction l with
  | nil =>
    intro out h
    simp [insertRow] at h
    subst h
    rfl
  | cons y ys ih =>
    intro out h
    cases hlt : jLtE y.Test_Id x.Test_Id with
    | error e => simp [insertRow, hlt] at h
    | ok b =>
      cases b with
      | true =>
        simp only [insertRow, hlt] at h
        cases hr : insertRow x ys with
        | error e => rw [hr] at h; simp at h
        | ok rest =>
          rw [hr] at h
          simp at h
          subst h
          simp [ih hr]
      | false =>
        simp [insertRow, hlt] at h
        subst h
        rfl

/-- A successful insertion into a sorted list stays sorted. -/
theorem insertRow_pairwise {x : ReportRow} :
    ∀ {l out}, List.Pairwise rowIdLe l → insertRow x l = .ok out →
      List.Pairwise rowIdLe out := by
  intro l
  induction l with
  | nil =>
    intro out _ h
    simp [insertRow] at h
    subst h
    simp
  | cons y ys ih =>
    intro out hp h
    have hp1 : ∀ z ∈ ys, rowIdLe y z := (List.pairwise_cons.mp hp).1
    have hp2 : List.Pairwise rowIdLe ys := (List.pairwise_cons.mp hp).2
    cases hlt : jLtE y.Test_Id x.Test_Id with
    | error e => simp [insertRow, hlt] at h
    | ok b =>
      cases b with
      | true =>
        simp only [insertRow, hlt] at h
        cases hr : insertRow x ys with
        | error e => rw [hr] at h; simp at h
        | ok rest =>
          rw [hr] at h
          simp at h
          subst h
          refine List.pairwise_cons.mpr ⟨?_, ih hp2 hr⟩
          intro z hz
          rcases insertRow_mem hr z hz with h1 | h1
          · rw [h1]
            exact jLtE_ok_true_le hlt
          · exact hp1 z h1
      | false =>
        simp [insertRow, hlt] at h
        subst h
        refine List.pairwise_cons.mpr ⟨?_, hp⟩
        intro z hz
        rcases List.mem_cons.mp hz with hz | hz
        · rw [hz]
          exact jLtE_ok_false_le hlt
        · intro u v hxu hzv
          obtain ⟨w, hyw, huw⟩ := jLtE_ok_false_str hlt u hxu
          exact le_trans huw (hp1 z hz w v hyw hzv)

/-- Every element of a successful sort came from the input. -/
theorem sortRows_mem :
    ∀ {l out}, sortRows l = .ok out → ∀ z ∈ out, z ∈ l := by
  intro l
  induction l with
  | nil =>
    intro out h z hz
    simp [sortRows] at h
    subst h
    simp at hz
  | cons x xs ih =>
    intro out h z hz
    cases hs : sortRows xs with
    | error e => simp [sortRows, hs] at h
    | ok s =>
      simp only [sortRows, hs] at h
      rcases insertRow_mem h z hz with h1 | h1
      · rw [h1]; exact List.mem_cons_self x xs
      · exact List.mem_cons_of_mem x (ih hs z h1)

/-- A successful sort preserves length. -/
theorem sortRows_length :
    ∀ {l out}, sortRows l = .ok out → out.length = l.length := by
  intro l
  induction l with
  | nil =>
    intro out h
    simp [sortRows] at h
    subst h
    rfl
  | cons x xs ih =>
    intro out h
    cases hs : sortRows xs with
    | error e => simp [sortRows, hs] at h
    | ok s =>
      simp only [sortRows, hs] at h
      rw [insertRow_length h, ih hs]
      rfl

/-- A successful sort is sorted (pairwise ascending by string id). -/
theorem sortRows_pairwise :
    ∀ {l out}, sortRows l = .ok out → List.Pairwise rowIdLe out := by
  intro l
  induction l with
  | nil =>
    intro out h
    simp [sortRows] at h
    subst h
    simp
  | cons x xs ih =>
    intro out h
    cases hs : sortRows xs with
    | error e => simp [sortRows, hs] at h
    | ok s =>
      simp only [sortRows, hs] at h
      exact insertRow_pairwise (ih hs) h

/-! ## Lemmas unfolding the extractor -/

/-- Inversion of `sortAndCount`: a successful result is the concatenation of
the four sorted buckets, and the counts are their lengths. -/
theorem sortAndCount_ok {results : List ReportRow} {res : ExtractResult}
    (h : sortAndCount results = .ok res) :
    ∃ f e s p,
      sortRows (results.filter (stateIs "failed")) = .ok f ∧
      sortRows (results.filter (stateIs "error")) = .ok e ∧
      sortRows (results.filter (stateIs "skipped")) = .ok s ∧
      sortRows (results.filter (stateIs "passed")) = .ok p ∧
      res.rows = f ++ e ++ s ++ p ∧
      res.total_failed = f.length ∧ res.total_error = e.length ∧
      res.total_skipped = s.length ∧ res.total_passed = p.length := by
  unfold sortAndCount at h
  cases h1 : sortRows (results.filter (stateIs "failed")) with
  | error e => rw [h1] at h; simp at h
  | ok f =>
    rw [h1] at h
    cases h2 : sortRows (results.filter (stateIs "error")) with
    | error e => rw [h2] at h; simp at h
    | ok er =>
      rw [h2] at h
      cases h3 : sortRows (results.filter (stateIs "skipped")) with
      | error e => rw [h3] at h; simp at h
      | ok sk =>
        rw [h3] at h
        cases h4 : sortRows (results.filter (stateIs "passed")) with
        | error e => rw [h4] at h; simp at h
        | ok pa =>
          rw [h4] at h
          simp at h
          subst h
          refine ⟨f, er, sk, pa, rfl, rfl, rfl, rfl, ?_, rfl, rfl, rfl, rfl⟩
          simp [List.append_assoc]

/-- Inversion of `extract_test_results`: a successful extraction is
`sortAndCount` of the normalized entries of a truthy `results` object. -/
theorem extract_ok_sortAndCount {data : J} {res : ExtractResult}
    (h : extract_test_results data = .ok res) :
    ∃ items, sortAndCount (normalizeAll items) = .ok res := by
  unfold extract_test_results wrapExtractError at h
  split at h
  next v heq =>
    simp at h
    subst h
    unfold extractCore at heq
    split at heq
    next e h1 => simp at heq
    next claimv h1 =>
      split at heq
      next e h2 => simp at heq
      next claim_results h2 =>
        split at heq
        · split at heq
          next e h3 => simp at heq
          next items h3 => exact ⟨items, heq⟩
        · simp at heq
  next e heq => simp at h

/-! ## Lemmas about the worksheet grid -/

/-- Indexing after `modifyNth`. -/
theorem modifyNth_getElem (f : α → α) :
    ∀ (n m : Nat) (l : List α),
      (modifyNth f n l)[m]? = if n = m then (l[m]?).map f else l[m]? := by
  intro n m l
  induction l generalizing n m with
  | nil => cases n <;> simp [modifyNth]
  | cons x xs ih =>
    cases n with
    | zero =>
      cases m with
      | zero => simp [modifyNth]
      | succ m => simp [modifyNth]
    | succ n =>
      cases m with
      | zero => simp [modifyNth]
      | succ m =>
        simp only [modifyNth, List.getElem?_cons_succ]
        rw [ih n m]
        by_cases hm : n = m
        · simp [hm]
        · simp [hm, fun h => hm (Nat.succ_injective h)]

/-- Writing to a different column leaves a cell's value unchanged. -/
theorem valueAt_setCellValue_col_ne {ws : List (List XCell)} {r1 c1 r2 c2 : Nat}
    (v : J) (h : c1 - 1 ≠ c2 - 1) :
    valueAt (setCellValue ws r1 c1 v) r2 c2 = valueAt ws r2 c2 := by
  unfold valueAt cellAt setCellValue
  rw [modifyNth_getElem]
  by_cases hr : r1 - 1 = r2 - 1
  · rw [if_pos hr]
    cases hw : ws[r2 - 1]? with
    | none => rfl
    | some row =>
      simp only [Option.map_eq_map, Option.map_some', Option.some_bind]
      rw [modifyNth_getElem, if_neg h]
  · rw [if_neg hr]

/-- Indexing into the row loop of the keyword-font pass. -/
theorem keywordRows_getElem :
    ∀ (ws : List (List XCell)) (k i : Nat),
      (keywordRows k ws)[i]? =
        (ws[i]?).map (fun row => if 2 ≤ k + i then keywordCols 1 row else row) := by
  intro ws
  induction ws with
  | nil => intro k i; simp [keywordRows]
  | cons row rest ih =>
    intro k i
    cases i with
    | zero => simp [keywordRows]
    | succ i =>
      simp only [keywordRows, List.getElem?_cons_succ]
      rw [ih (k + 1) i]
      have harith : k + 1 + i = k + (i + 1) := by omega
      rw [harith]

/-- Indexing into the column loop of the keyword-font pass. -/
theorem keywordCols_getElem :
    ∀ (row : List XCell) (k j : Nat),
      (keywordCols k row)[j]? =
        (row[j]?).map (fun c =>
          if k + j ≤ 6 && keywordMatch c.value then { c with font := blueBoldFont } else c) := by
  intro row
  induction row with
  | nil => intro k j; simp [keywordCols]
  | cons c cs ih =>
    intro k j
    cases j with
    | zero => simp [keywordCols]
    | succ j =>
      simp only [keywordCols, List.getElem?_cons_succ]
      rw [ih (k + 1) j]
      have harith : k + 1 + j = k + (j + 1) := by omega
      rw [harith]

/-- The keyword-font pass never changes cell values. -/
theorem valueAt_apply_final_formatting (ws : List (List XCell)) (r c : Nat) :
    valueAt (apply_final_formatting ws) r c = valueAt ws r c := by
  unfold valueAt cellAt apply_final_formatting
  rw [keywordRows_getElem]
  cases hw : ws[r - 1]? with
  | none => rfl
  | some row =>
    simp only [Option.map_some', Option.some_bind]
    by_cases h2 : 2 ≤ 1 + (r - 1)
    · rw [if_pos h2, keywordCols_getElem]
      cases hc : row[c - 1]? with
      | none => rfl
      | some cell =>
        simp only [Option.map_some']
        by_cases hm : (1 + (c - 1) ≤ 6 && keywordMatch cell.value) = true
        · rw [if_pos hm]
        · rw [if_neg hm]
    · rw [if_neg h2]

/-- `add_version_information` writes only into columns 3 and 4. -/
theorem valueAt_add_version_information {ws : List (List XCell)} (data : J)
    {r c : Nat} (h3 : c - 1 ≠ 2) (h4 : c - 1 ≠ 3) :
    valueAt (add_version_information ws data) r c = valueAt ws r c := by
  unfold add_version_information
  cases versionValues data with
  | error e => rfl
  | ok vs =>
    simp only
    rw [valueAt_setCellValue_col_ne _ (by omega)]
    rw [valueAt_setCellValue_col_ne _ (by omega)]
    rw [valueAt_setCellValue_col_ne _ (by omega)]
    rw [valueAt_setCellValue_col_ne _ (by omega)]
    rw [valueAt_setCellValue_col_ne _ (by omega)]
    rw [valueAt_setCellValue_col_ne _ (by omega)]
    rw [valueAt_setCellValue_col_ne _ (by omega)]
    rw [valueAt_setCellValue_col_ne _ (by omega)]
    rw [valueAt_setCellValue_col_ne _ (by omega)]
    rw [valueAt_setCellValue_col_ne _ (by omega)]
    rw [valueAt_setCellValue_col_ne _ (by omega)]
    rw [valueAt_setCellValue_col_ne _ (by omega)]
    rw [valueAt_setCellValue_col_ne _ (by omega)]
    rw [valueAt_setCellValue_col_ne _ (by omega)]

/-- The summary section always writes `B2 = len(sorted_tests)`. -/
theorem add_summary_section_B2 (ws : List (List XCell)) (rows : List ReportRow)
    (f e s p : Nat) (j : String) :
    valueAt (add_summary_section ws rows f e s p j) 2 2 = some (J.num rows.length) := by
  rfl

/-- The summary section always writes the job URL into `B7`. -/
theorem add_summary_section_B7 (ws : List (List XCell)) (rows : List ReportRow)
    (f e s p : Nat) (j : String) :
    valueAt (add_summary_section ws rows f e s p j) 7 2 =
      some (J.str ("https://www.distributed-ci.io/jobs/" ++ j)) := by
  rfl

/-! ## Lemmas about per-entry normalization -/

/-- A successfully normalized row omits `Capture_Output` and
`Best_Practice_Link` exactly when its `State` is the string `"passed"`. -/
theorem normalizeEntry_passed_iff {test : J} {row : ReportRow}
    (h : normalizeEntry test = .ok row) :
    ((row.Capture_Output = none ∧ row.Best_Practice_Link = none) ↔
      row.State = J.str "passed") := by
  cases test with
  | null => simp [normalizeEntry, pyGet] at h
  | bool b => simp [normalizeEntry, pyGet] at h
  | num n => simp [normalizeEntry, pyGet] at h
  | str s => simp [normalizeEntry, pyGet] at h
  | arr xs => simp [normalizeEntry, pyGet] at h
  | obj fs =>
    unfold normalizeEntry at h
    split at h
    next e heq => simp at h
    next testID heq1 =>
    split at h
    next e heq => simp at h
    next tid heq2 =>
    split at h
    next e heq => simp at h
    next catalog heq3 =>
    split at h
    next e heq => simp at h
    next desc heq4 =>
    split at h
    next e heq => simp at h
    next state heq5 =>
    split at h
    next e heq => simp at h
    next catMap heq6 =>
    split at h
    next e heq => simp at h
    next catItems heq7 =>
    split at h
    next e heq => simp at h
    next excProc heq8 =>
    split at h
    next e heq => simp at h
    next remed heq9 =>
    split at h
    next e heq => simp at h
    next captured heq10 =>
    split at h
    next e heq => simp at h
    next filteredStr heq11 =>
    split at h
    next e heq => simp at h
    next stateCheck heq12 =>
    simp only [pyGet, Except.ok.injEq] at heq5 heq12
    split at h
    next hpass =>
      simp only [Except.ok.injEq] at h
      subst h
      cases hlk : jLookup fs "state" with
      | none =>
        rw [hlk] at heq12
        simp at heq12
        rw [← heq12] at hpass
        simp [jIsStr] at hpass
      | some v =>
        rw [hlk] at heq5 heq12
        simp at heq5 heq12
        rw [← heq12] at hpass
        cases v with
        | str s2 =>
          simp [jIsStr] at hpass
          subst hpass
          simp [← heq5]
        | null => simp [jIsStr] at hpass
        | bool b => simp [jIsStr] at hpass
        | num n => simp [jIsStr] at hpass
        | obj fs2 => simp [jIsStr] at hpass
        | arr xs => simp [jIsStr] at hpass
    next hpass =>
      split at h
      next e heq => simp at h
      next bpr heq13 =>
      simp only [Except.ok.injEq] at h
      subst h
      simp only []
      constructor
      · intro hcontra
        exact absurd hcontra.1 (by simp)
      · intro hst
        exfalso
        cases hlk : jLookup fs "state" with
        | none =>
          rw [hlk] at heq5
          simp at heq5
          rw [← heq5] at hst
          simp at hst
        | some v =>
          rw [hlk] at heq5 heq12
          simp at heq5 heq12
          rw [← heq12] at hpass
          rw [← heq5] at hst
          rw [hst] at hpass
          simp [jIsStr] at hpass

/-! ## The claims -/

/-- C1: For every claim record the extractor accepts, the row sequence is the
concatenation, in this fixed order, of the `failed`, `error`, `skipped` and
`passed` buckets (membership by exact state string), each bucket sorted
ascending by id under lexicographic string order (so the empty id comes
first); and the three-entry scenario — `failed` id `"B"`, `passed` id `"A"`,
`skipped` id `"A"` — yields the row order `[B(failed), A(skipped),
A(passed)]`. -/
theorem claim_C1_bucket_order :
    (∀ (data : J) (res : ExtractResult), extract_test_results data = .ok res →
      ∃ f e s p,
        res.rows = f ++ e ++ s ++ p ∧
        (∀ r ∈ f, stateIs "failed" r = true) ∧
        (∀ r ∈ e, stateIs "error" r = true) ∧
        (∀ r ∈ s, stateIs "skipped" r = true) ∧
        (∀ r ∈ p, stateIs "passed" r = true) ∧
        List.Pairwise rowIdLe f ∧ List.Pairwise rowIdLe e ∧
        List.Pairwise rowIdLe s ∧ List.Pairwise rowIdLe p) ∧
    extract_test_results exampleClaimData = .ok exampleExtract ∧
    exampleExtract.rows.map (fun r => (r.Test_Id, r.State)) =
      [(J.str "B", J.str "failed"), (J.str "A", J.str "skipped"),
       (J.str "A", J.str "passed")] := by
  refine ⟨?_, by rfl, by rfl⟩
  intro data res h
  obtain ⟨items, hs⟩ := extract_ok_sortAndCount h
  obtain ⟨f, e, s, p, hf, he, hsk, hp, hrows, _, _, _, _⟩ := sortAndCount_ok hs
  refine ⟨f, e, s, p, hrows, ?_, ?_, ?_, ?_,
    sortRows_pairwise hf, sortRows_pairwise he,
    sortRows_pairwise hsk, sortRows_pairwise hp⟩
  · intro r hr
    exact (List.mem_filter.mp (sortRows_mem hf r hr)).2
  · intro r hr
    exact (List.mem_filter.mp (sortRows_mem he r hr)).2
  · intro r hr
    exact (List.mem_filter.mp (sortRows_mem hsk r hr)).2
  · intro r hr
    exact (List.mem_filter.mp (sortRows_mem hp r hr)).2

/-- Witness for C1: the bucket decomposition at the three-entry scenario. -/
theorem claim_C1_bucket_order_witness :
    ∃ f e s p,
      exampleExtract.rows = f ++ e ++ s ++ p ∧
      (∀ r ∈ f, stateIs "failed" r = true) ∧
      (∀ r ∈ e, stateIs "error" r = true) ∧
      (∀ r ∈ s, stateIs "skipped" r = true) ∧
      (∀ r ∈ p, stateIs "passed" r = true) ∧
      List.Pairwise rowIdLe f ∧ List.Pairwise rowIdLe e ∧
      List.Pairwise rowIdLe s ∧ List.Pairwise rowIdLe p :=
  claim_C1_bucket_order.1 exampleClaimData exampleExtract (by rfl)

/-- C2: A normalized row carries `Capture_Output` and `Best_Practice_Link`
exactly when its state is not the string `"passed"` (for passed rows the
fields are absent, not empty), and the renderer writes the empty string into
the `Capture_Output` (4th) and `Best_Practice_Link` (8th) cells of every
passed row. -/
theorem claim_C2_conditional_fields :
    ∀ (test : J) (row : ReportRow), normalizeEntry test = .ok row →
      ((row.Capture_Output = none ∧ row.Best_Practice_Link = none) ↔
        row.State = J.str "passed") ∧
      (row.State = J.str "passed" →
        (row_values row).getD 3 J.null = J.str "" ∧
        (row_values row).getD 7 J.null = J.str "") := by
  intro test row h
  have hiff := normalizeEntry_passed_iff h
  refine ⟨hiff, ?_⟩
  intro hst
  obtain ⟨hco, hbp⟩ := hiff.mpr hst
  simp [row_values, hco, hbp]

/-- Witness for C2 at the minimal passed entry. -/
theorem claim_C2_conditional_fields_witness :
    ((rowPassedA.Capture_Output = none ∧ rowPassedA.Best_Practice_Link = none) ↔
      rowPassedA.State = J.str "passed") ∧
    (rowPassedA.State = J.str "passed" →
      (row_values rowPassedA).getD 3 J.null = J.str "" ∧
      (row_values rowPassedA).getD 7 J.null = J.str "") :=
  claim_C2_conditional_fields entryPassedA rowPassedA (by rfl)

/-- C3: the length of the extracted row sequence always equals the sum of the
four counts; every returned row has one of the four recognized states (rows
with any other state are in no bucket); and the rendered `Total` cell (`B2`)
equals the row-sequence length. -/
theorem claim_C3_total_counts :
    ∀ (data : J) (res : ExtractResult), extract_test_results data = .ok res →
      res.rows.length =
        res.total_failed + res.total_error + res.total_skipped + res.total_passed ∧
      (∀ r ∈ res.rows, recognizedState r = true) ∧
      (∀ jobid, valueAt (render_report data res jobid) 2 2 =
        some (J.num res.rows.length)) := by
  intro data res h
  obtain ⟨items, hs⟩ := extract_ok_sortAndCount h
  obtain ⟨f, e, s, p, hf, he, hsk, hp, hrows, hcf, hce, hcs, hcp⟩ := sortAndCount_ok hs
  refine ⟨?_, ?_, ?_⟩
  · rw [hrows, hcf, hce, hcs, hcp]
    simp only [List.length_append]
    try omega
  · intro r hr
    rw [hrows] at hr
    simp only [List.mem_append] at hr
    unfold recognizedState
    rcases hr with ((hr | hr) | hr) | hr
    · rw [(List.mem_filter.mp (sortRows_mem hf r hr)).2]
      simp
    · rw [(List.mem_filter.mp (sortRows_mem he r hr)).2]
      simp
    · rw [(List.mem_filter.mp (sortRows_mem hsk r hr)).2]
      simp
    · rw [(List.mem_filter.mp (sortRows_mem hp r hr)).2]
      simp
  · intro jobid
    unfold render_report
    rw [valueAt_apply_final_formatting]
    rw [valueAt_add_version_information data (by omega) (by omega)]
    exact add_summary_section_B2 _ _ _ _ _ _ _

/-- Witness for C3 at the three-entry scenario. -/
theorem claim_C3_total_counts_witness :
    exampleExtract.rows.length =
      exampleExtract.total_failed + exampleExtract.total_error +
        exampleExtract.total_skipped + exampleExtract.total_passed ∧
    (∀ r ∈ exampleExtract.rows, recognizedState r = true) ∧
    (∀ jobid, valueAt (render_report exampleClaimData exampleExtract jobid) 2 2 =
      some (J.num exampleExtract.rows.length)) :=
  claim_C3_total_counts exampleClaimData exampleExtract (by rfl)

/-- Counterexample for C4: on `"line1\n"` the implemented filter returns
`"line1"`, but the claimed behavior (exactly the input's lines, rejoined)
would return `"line1\n"` — the code strips the whole string first. -/
theorem claim_C4_line_filter_cex :
    pyFilter ("line1\n".data) = "line1".data ∧
    specLineFilter ("line1\n".data) = "line1\n".data ∧
    pyFilter ("line1\n".data) ≠ specLineFilter ("line1\n".data) := by
  refine ⟨by decide, by decide, by decide⟩

/-- C4 (amended): the captured-output filter first strips leading and
trailing whitespace from the input, then returns exactly the *stripped*
input's lines that do not contain `"INFO"`, in order, rejoined with newline
separators; the empty input yields the empty output, and
`"line1\nINFO noisy\nline2"` yields `"line1\nline2"`. -/
theorem claim_C4_line_filter :
    (∀ l : List Char, pyFilter l = specLineFilter (pyStrip l)) ∧
    pyFilterStr "" = "" ∧
    pyFilterStr "line1\nINFO noisy\nline2" = "line1\nline2" := by
  refine ⟨?_, by rfl, by rfl⟩
  intro l
  cases l with
  | nil => rfl
  | cons x xs =>
    unfold pyFilter
    rw [if_neg (by simp)]
    rfl

/-- Counterexample for C5: `"INFO\n a"` filters to `" a"`, whose own filter
is `"a"` — the filtered output contains no `"INFO"`, yet the filter is not
idempotent on it, because the second pass re-strips whitespace. -/
theorem claim_C5_filter_idem_cex :
    containsInfo (pyFilter ("INFO\n a".data)) = false ∧
    pyFilter (pyFilter ("INFO\n a".data)) ≠ pyFilter ("INFO\n a".data) := by
  refine ⟨by decide, by decide⟩

/-- C5 (amended): the captured-output filter is idempotent on every input
whose filtered output carries no leading or trailing whitespace (its own
strip fixes it): `filter (filter x) = filter x` then. -/
theorem claim_C5_filter_idem :
    ∀ l : List Char, pyStrip (pyFilter l) = pyFilter l →
      pyFilter (pyFilter l) = pyFilter l := by
  intro l hstrip
  by_cases h0 : pyFilter l = []
  · rw [h0]
    rfl
  · have hlne : l ≠ [] := by
      intro he
      apply h0
      rw [he]
      rfl
    have hjoin : pyFilter l =
        joinWithChar '\n' ((pySplitOnChar '\n' (pyStrip l)).filter keepLine) := by
      unfold pyFilter
      rw [if_neg hlne]
      rfl
    have hMne : (pySplitOnChar '\n' (pyStrip l)).filter keepLine ≠ [] := by
      intro hnil
      apply h0
      rw [hjoin, hnil]
      rfl
    obtain ⟨m0, rest, hcons⟩ := List.exists_cons_of_ne_nil hMne
    have hfree : ∀ m ∈ m0 :: rest, '\n' ∉ m := by
      intro m hm
      rw [← hcons] at hm
      exact mem_pySplitOnChar '\n' (pyStrip l) m (List.mem_filter.mp hm).1
    have hres : pyFilter (pyFilter l) = pyFilterLines (pyFilter l) := by
      rw [show pyFilter (pyFilter l) =
            if pyFilter l = [] then [] else pyFilterLines (pyFilter l) from rfl]
      rw [if_neg h0]
    rw [hres]
    unfold pyFilterLines
    rw [hstrip, hjoin, hcons, pySplitOnChar_joinWithChar '\n' m0 rest hfree,
        ← hcons, filter_idem_list keepLine]

/-- Witness for C5 (amended) at `"b\nINFO\na"`, whose filtered output
`"b\na"` is whitespace-clean. -/
theorem claim_C5_filter_idem_witness :
    pyFilter (pyFilter ("b\nINFO\na".data)) = pyFilter ("b\nINFO\na".data) :=
  claim_C5_filter_idem ("b\nINFO\na".data) (by decide)

/-- C6: a claim record whose `results` mapping is empty or absent makes
extraction fail with the missing-results error (not an empty success), and
the whole report generation fails with it. -/
theorem claim_C6_missing_results :
    ∀ (data claimv : J),
      pyGet data "claim" (J.obj []) = .ok claimv →
      pyGet claimv "results" (J.obj []) = .ok (J.obj []) →
      extract_test_results data =
        .error "Error extracting test results: No test results found in claim data" ∧
      (∀ jobid, ∃ msg, generate_report_core data jobid = .error msg) := by
  intro data claimv h1 h2
  cases data with
  | null => simp [pyGet] at h1
  | bool b => simp [pyGet] at h1
  | num n => simp [pyGet] at h1
  | str s => simp [pyGet] at h1
  | arr xs => simp [pyGet] at h1
  | obj fs =>
    cases claimv with
    | null => simp [pyGet] at h2
    | bool b => simp [pyGet] at h2
    | num n => simp [pyGet] at h2
    | str s => simp [pyGet] at h2
    | arr xs => simp [pyGet] at h2
    | obj gs =>
      simp only [pyGet, Except.ok.injEq] at h1 h2
      have hext : extract_test_results (J.obj fs) =
          .error "Error extracting test results: No test results found in claim data" := by
        unfold extract_test_results extractCore
        simp only [pyGet]
        rw [h1]
        simp only [pyGet]
        rw [h2]
        rfl
      refine ⟨hext, ?_⟩
      intro jobid
      unfold generate_report_core
      by_cases hany : (fs.any (fun kv => decide (kv.1 = "claim"))) = true
      · rw [show jContains (J.obj fs) "claim" = .ok true from congrArg Except.ok hany]
        dsimp only [pyGet]
        rw [h1]
        by_cases hres : (gs.any (fun kv => decide (kv.1 = "results"))) = true
        · rw [show jContains (J.obj gs) "results" = .ok true from
            congrArg Except.ok hres]
          rw [hext]
          exact ⟨_, rfl⟩
        · rw [show jContains (J.obj gs) "results" = .ok false from
            congrArg Except.ok ((Bool.not_eq_true _) ▸ hres)]
          exact ⟨_, rfl⟩
      · rw [show jContains (J.obj fs) "claim" = .ok false from
          congrArg Except.ok ((Bool.not_eq_true _) ▸ hany)]
        exact ⟨_, rfl⟩

/-- Witness for C6 at a record with a present-but-empty `results` mapping. -/
theorem claim_C6_missing_results_witness :
    extract_test_results emptyResultsClaimData =
      .error "Error extracting test results: No test results found in claim data" ∧
    (∀ jobid, ∃ msg, generate_report_core emptyResultsClaimData jobid = .error msg) :=
  claim_C6_missing_results emptyResultsClaimData (J.obj [("results", J.obj [])])
    (by rfl) (by rfl)

/-- C7: one entry whose normalization raises is skipped and does not abort
extraction — the extractor's result on a record containing it is exactly the
bucket/sort/count pipeline applied to the remaining entries, as if the
malformed entry were absent. -/
theorem claim_C7_malformed_entry_skipped :
    ∀ (pre post : List (String × J)) (k : String) (bad : J) (e : String),
      normalizeEntry bad = .error e →
      extract_test_results (mkClaimData (pre ++ (k, bad) :: post)) =
        wrapExtractError (sortAndCount (normalizeAll (pre ++ post))) := by
  intro pre post k bad e hbad
  have hna : normalizeAll (pre ++ (k, bad) :: post) = normalizeAll (pre ++ post) := by
    unfold normalizeAll
    rw [List.filterMap_append, List.filterMap_append, List.filterMap_cons]
    simp [hbad, Except.toOption]
  have hcore : extractCore (mkClaimData (pre ++ (k, bad) :: post)) =
      sortAndCount (normalizeAll (pre ++ (k, bad) :: post)) := by
    unfold extractCore mkClaimData
    rw [show pyGet
        (J.obj [("claim", J.obj [("results", J.obj (pre ++ (k, bad) :: post))])])
        "claim" (J.obj []) =
        .ok (J.obj [("results", J.obj (pre ++ (k, bad) :: post))]) from by rfl]
    dsimp only
    rw [show pyGet (J.obj [("results", J.obj (pre ++ (k, bad) :: post))])
        "results" (J.obj []) = .ok (J.obj (pre ++ (k, bad) :: post)) from by rfl]
    dsimp only
    have h3 : truthy (J.obj (pre ++ (k, bad) :: post)) = true := by
      cases pre with
      | nil => rfl
      | cons q qs => rfl
    rw [if_pos h3]
    rfl
  unfold extract_test_results
  rw [hcore, hna]

/-- Witness for C7: dropping a malformed (string-valued) entry from a
two-entry record leaves exactly the well-formed entry's pipeline. -/
theorem claim_C7_malformed_entry_skipped_witness :
    extract_test_results (mkClaimData ([("t1", entryFailedB)] ++ ("bad", J.str "zz") :: [])) =
      wrapExtractError (sortAndCount (normalizeAll ([("t1", entryFailedB)] ++ []))) :=
  claim_C7_malformed_entry_skipped [("t1", entryFailedB)] [] "bad" (J.str "zz")
    "AttributeError: get" (by rfl)

/-- In the final formatting pass, a cell in rows 2+ and columns 1-6 whose
value matches a classification keyword ends with the keyword font. -/
theorem keyword_font_final {ws : List (List XCell)} {r c : Nat} {cell : XCell}
    (hr : 2 ≤ r) (hc : c ≤ 6)
    (hcell : cellAt (apply_final_formatting ws) r c = some cell)
    (hkw : keywordMatch cell.value = true) : cell.font = blueBoldFont := by
  unfold cellAt apply_final_formatting at hcell
  rw [keywordRows_getElem] at hcell
  cases hw : ws[r - 1]? with
  | none => rw [hw] at hcell; simp at hcell
  | some row =>
    rw [hw] at hcell
    simp only [Option.map_some', Option.some_bind] at hcell
    have h2 : 2 ≤ 1 + (r - 1) := by omega
    rw [if_pos h2, keywordCols_getElem] at hcell
    cases hrow : row[c - 1]? with
    | none => rw [hrow] at hcell; simp at hcell
    | some cell0 =>
      rw [hrow] at hcell
      simp only [Option.map_some', Option.some.injEq] at hcell
      by_cases hm : keywordMatch cell0.value = true
      · have hcond : (decide (1 + (c - 1) ≤ 6) && keywordMatch cell0.value) = true := by
          simp only [hm, Bool.and_true, decide_eq_true_eq]
          omega
        rw [if_pos hcond] at hcell
        rw [← hcell]
      · have hcond : ¬((decide (1 + (c - 1) ≤ 6) && keywordMatch cell0.value) = true) := by
          simp [hm]
        rw [if_neg hcond] at hcell
        rw [← hcell] at hkw
        exact absurd hkw hm

/-- Counterexample for C8: in the rendered report for `keywordClaimData`,
the `Remediation` cell (row 11, column 7) contains the keyword `"Telco:"`
yet keeps the plain Arial font (no color) — the keyword pass only covers
columns 1-6, so the claim's "all 8 columns" fails. -/
theorem claim_C8_keyword_font_cex :
    extract_test_results keywordClaimData = .ok keywordExtract ∧
    (cellAt (render_report keywordClaimData keywordExtract "12345") 11 7).map
        (fun cell => (cell.value, cell.font.color)) =
      some (J.str "Telco: fix it", none) ∧
    keywordMatch (J.str "Telco: fix it") = true ∧
    (cellAt (render_report keywordClaimData keywordExtract "12345") 11 7).map
        (fun cell => cell.font.color) ≠ some (some "0000FF") := by
  refine ⟨by rfl, by rfl, by rfl, ?_⟩
  rw [show (cellAt (render_report keywordClaimData keywordExtract "12345") 11 7).map
      (fun cell => cell.font.color) = some none from by rfl]
  simp

/-- C8 (amended): in the rendered report, every cell of the row table (rows
11 and below) in the first six columns (`Test_Id` through
`Exception_Process`) whose string value contains one of the literal
substrings `Extended:`, `FarEdge:`, `NonTelco:`, `Telco:` receives the
classification font color; the `Remediation` and `Best_Practice_Link`
columns are outside the recolored range. -/
theorem claim_C8_keyword_font :
    ∀ (data : J) (res : ExtractResult) (jobid : String) (r c : Nat) (cell : XCell),
      11 ≤ r → c ≤ 6 →
      cellAt (render_report data res jobid) r c = some cell →
      keywordMatch cell.value = true →
      cell.font = blueBoldFont := by
  intro data res jobid r c cell hr hc hcell hkw
  unfold render_report at hcell
  exact keyword_font_final (by omega) hc hcell hkw

/-- Witness for C8 (amended): the `Category_Classification` cell (column 5)
of the same report is recolored. -/
theorem claim_C8_keyword_font_witness :
    cellAt (render_report keywordClaimData keywordExtract "12345") 11 5 =
      some keywordBlueCell ∧
    keywordBlueCell.font = blueBoldFont :=
  ⟨by rfl,
   claim_C8_keyword_font keywordClaimData keywordExtract "12345" 11 5 keywordBlueCell
     (by omega) (by omega) (by rfl) (by rfl)⟩

/-- C9: with no job reference supplied, the job id defaults to the literal
`"12345"`, and the rendered report's `Job-Id` cell `B7` contains
`https://www.distributed-ci.io/jobs/12345` — for every extraction result,
never omitted or empty. -/
theorem claim_C9_offline_jobid :
    effective_job_id none = "12345" ∧
    ∀ (data : J) (res : ExtractResult),
      valueAt (render_report data res (effective_job_id none)) 7 2 =
        some (J.str "https://www.distributed-ci.io/jobs/12345") := by
  refine ⟨rfl, ?_⟩
  intro data res
  unfold render_report
  rw [valueAt_apply_final_formatting]
  rw [valueAt_add_version_information data (by omega) (by omega)]
  rw [add_summary_section_B7]
  rfl

/-- C10: whenever `dcirc.sh` is absent, the program exits with status code 0
before any extraction — for every combination of installed tools and
arguments, including offline runs — and exiting early is never generating a
report, so a zero exit does not imply a report was written. -/
theorem claim_C10_missing_dcirc :
    (∀ (dcictl download_ok : Bool) (input_file : String) (job_id_arg : Option String),
      main_flow false dcictl download_ok input_file job_id_arg =
        MainOutcome.exitEarly 0) ∧
    (∀ (input_file job_id : String),
      MainOutcome.exitEarly 0 ≠ MainOutcome.generateReport input_file job_id) := by
  constructor
  · intro dcictl dok input jarg
    rfl
  · intro input j
    intro h
    exact absurd h (by simp)
